import Mathlib

/-!
Verification of the lcdproc `sevenseg` driver core
(`server/drivers/sevenseg-drivers.h` compilation unit: the i2c connection
layer, the seven-segment text driver and its header).

The development shallowly embeds the C functions as Lean definitions:
machine bytes become `Nat` (with explicit bounds/masks where overflow or
truncation matters), pointers to the private-data struct become explicit
parameters and return values, and the side effects that matter to the
claims (bus writes, settle pauses, log messages) become explicit event
lists returned by the embedded functions.
-/

set_option maxRecDepth 8000

/-- Severity levels of the `report` logging facility (subset used here). -/
inductive RptLevel
  | err
  | warning
  | info
  | debug
deriving DecidableEq

/-- Observable effect of the connection layer on the bus: a single 8-bit
port write (`i2c_out`) or a settle pause of the given number of
microseconds (`uPause`). -/
inductive BusEvent
  | write (val : Nat)
  | pause (us : Nat)
deriving DecidableEq

/-- Values of the port writes of a trace, in order (pauses dropped). -/
def writesOf (tr : List BusEvent) : List Nat :=
  tr.filterMap fun e =>
    match e with
    | BusEvent.write v => some v
    | BusEvent.pause _ => none

/-- Bit mask with exactly bit `k` set, as the C sources build them. -/
def bitMask (k : Nat) : Nat := 1 <<< k

/-- The pin assignment of the logical HD44780 lines to bit positions of
the expander's 8-bit output port (`p->i2c_line_EN` etc. hold the masks
`bitMask en`, ...). -/
structure LinePinMap where
  en : Nat
  rs : Nat
  bl : Nat
  d4 : Nat
  d5 : Nat
  d6 : Nat
  d7 : Nat

/-- Wellformedness of a pin map: seven distinct bit positions of one byte. -/
def LinePinMap.wf (m : LinePinMap) : Prop :=
  m.en < 8 ∧ m.rs < 8 ∧ m.bl < 8 ∧ m.d4 < 8 ∧ m.d5 < 8 ∧ m.d6 < 8 ∧ m.d7 < 8 ∧
  m.en ≠ m.rs ∧ m.en ≠ m.bl ∧ m.en ≠ m.d4 ∧ m.en ≠ m.d5 ∧ m.en ≠ m.d6 ∧ m.en ≠ m.d7 ∧
  m.rs ≠ m.bl ∧ m.rs ≠ m.d4 ∧ m.rs ≠ m.d5 ∧ m.rs ≠ m.d6 ∧ m.rs ≠ m.d7 ∧
  m.bl ≠ m.d4 ∧ m.bl ≠ m.d5 ∧ m.bl ≠ m.d6 ∧ m.bl ≠ m.d7 ∧
  m.d4 ≠ m.d5 ∧ m.d4 ≠ m.d6 ∧ m.d4 ≠ m.d7 ∧
  m.d5 ≠ m.d6 ∧ m.d5 ≠ m.d7 ∧
  m.d6 ≠ m.d7

instance (m : LinePinMap) : Decidable m.wf := by
  unfold LinePinMap.wf; infer_instance

/-- Pin map of the common PCF8574 backpack wiring, used as a concrete
witness instance (RS=bit0, RW=bit1, EN=bit2, BL=bit3, D4..D7=bits 4..7). -/
def stdPinMap : LinePinMap :=
  { en := 2, rs := 0, bl := 3, d4 := 4, d5 := 5, d6 := 6, d7 := 7 }

/-- Modelled from the spec: the register-select frame kinds of
`hd44780-low.h` (not under src/): an Instruction frame carries flag value
0, a Data frame a nonzero flag value. -/
def RS_INSTR : Nat := 0

/-- Modelled from the spec: the Data frame-kind flag of `hd44780-low.h`
(not under src/). -/
def RS_DATA : Nat := 1

/-- Modelled from the spec/missing header `map_to_7segment.h` (not under
src/): bit position of segment A in a seven-segment pattern. -/
def BIT_SEG7_A : Nat := 0

/-- Bit position of segment B (modelled from the spec, see `BIT_SEG7_A`). -/
def BIT_SEG7_B : Nat := 1

/-- Bit position of segment C (modelled from the spec, see `BIT_SEG7_A`). -/
def BIT_SEG7_C : Nat := 2

/-- Bit position of segment D (modelled from the spec, see `BIT_SEG7_A`). -/
def BIT_SEG7_D : Nat := 3

/-- Bit position of segment E (modelled from the spec, see `BIT_SEG7_A`). -/
def BIT_SEG7_E : Nat := 4

/-- Bit position of segment F (modelled from the spec, see `BIT_SEG7_A`). -/
def BIT_SEG7_F : Nat := 5

/-- Bit position of segment G (modelled from the spec, see `BIT_SEG7_A`). -/
def BIT_SEG7_G : Nat := 6

/-- The 180-degree rotation transform `flip_seg7` of `text.c`: remaps the
perimeter segment pairs A-D, B-E, C-F and keeps the center segment G. -/
def flip_seg7 (val : Nat) : Nat :=
  (if val &&& (1 <<< BIT_SEG7_A) ≠ 0 then 1 <<< BIT_SEG7_D else 0) |||
  (if val &&& (1 <<< BIT_SEG7_B) ≠ 0 then 1 <<< BIT_SEG7_E else 0) |||
  (if val &&& (1 <<< BIT_SEG7_C) ≠ 0 then 1 <<< BIT_SEG7_F else 0) |||
  (if val &&& (1 <<< BIT_SEG7_D) ≠ 0 then 1 <<< BIT_SEG7_A else 0) |||
  (if val &&& (1 <<< BIT_SEG7_E) ≠ 0 then 1 <<< BIT_SEG7_B else 0) |||
  (if val &&& (1 <<< BIT_SEG7_F) ≠ 0 then 1 <<< BIT_SEG7_C else 0) |||
  (val &&& (1 <<< BIT_SEG7_G))

/-- Modelled from the spec: the default segment table `SEG7_DEFAULT_MAP`
of the missing header `map_to_7segment.h` (not under src/); per the spec
an immutable table from printable character to a 7-bit segment pattern
(segments A..G), characters absent from the table resolving to the blank
pattern 0. -/
def map_seg7 (c : Nat) : Nat :=
  if c = 45 then 64            -- while a minus sign lights segment G
  else if c = 48 then 63       -- digits 0..9
  else if c = 49 then 6
  else if c = 50 then 91
  else if c = 51 then 79
  else if c = 52 then 102
  else if c = 53 then 109
  else if c = 54 then 125
  else if c = 55 then 7
  else if c = 56 then 127
  else if c = 57 then 111
  else if c = 65 then 119      -- letters with a conventional glyph
  else if c = 67 then 57
  else if c = 69 then 121
  else if c = 70 then 113
  else if c = 72 then 118
  else if c = 76 then 56
  else if c = 80 then 115
  else if c = 85 then 62
  else if c = 95 then 8
  else if c = 98 then 124
  else if c = 100 then 94
  else if c = 104 then 116
  else if c = 111 then 92
  else 0

/-- Modelled from the spec/missing header `map_to_7segment.h`: the lookup
helper `map_to_seg7`, returning the table entry for an in-range character
code and 0 (blank) otherwise (the table has 128 entries). -/
def map_to_seg7 (c : Nat) : Nat :=
  if c < 128 then map_seg7 c else 0

/-- Result of one call of the transport write primitive `i2c_out` of
`sevenseg-i2c.c`.  The C function is `static void`: `ret` models its
return value, `attempts` the number of underlying `i2c_write_no_ack`
calls it makes, `log` the `drv_report` message it emits (if any) and
`latch'` the new value of the function-local static
`no_more_errormsgs`. -/
structure I2cOutCall where
  attempts : Nat
  busWrite : Nat
  log : Option RptLevel
  latch' : Bool
  ret : Unit

/-- The transport write primitive `i2c_out`: attempts exactly one bus
write of `val`; on failure (`ack = false`) it reports at error level on
the first failure ever (latch clear) and at debug level afterwards, sets
the latch, and returns nothing (C `void`).  The latch is never cleared. -/
def i2c_out (latch : Bool) (ack : Bool) (val : Nat) : I2cOutCall :=
  { attempts := 1
    busWrite := val
    log := if ack then none else some (if latch then RptLevel.debug else RptLevel.err)
    latch' := if ack then latch else true
    ret := () }

/-- Run a sequence of `i2c_out` calls with the given per-call bus
outcomes (`true` = acknowledged), threading the static latch, and collect
the log message of each call. -/
def runWrites (latch : Bool) : List Bool → List (Option RptLevel)
  | [] => []
  | a :: rest => (i2c_out latch a 0).log :: runWrites (i2c_out latch a 0).latch' rest

/-- The backlight controller `i2c_sevenseg_backlight` of `sevenseg-i2c.c`.
Returns the new `p->backlight_bit` and the bus events issued.  `hasPin`
is modelled from the spec: the `have_backlight_pin(p)` capability macro
of `hd44780-low.h` is not under src/; per the spec it tells whether the
display has a physical backlight pin.  `invert` is `p->i2c_backlight_invert`
and `state` the requested on/off value (C truthiness: nonzero = on). -/
def i2c_sevenseg_backlight (m : LinePinMap) (hasPin : Bool) (invert : Nat)
    (state : Nat) : Nat × List BusEvent :=
  let b :=
    if invert = 0 then
      if hasPin = false ∨ state ≠ 0 then 0 else bitMask m.bl
    else
      if hasPin = true ∧ state ≠ 0 then bitMask m.bl else 0
  (b, [BusEvent.write b])

/-- The line driver `i2c_sevenseg_senddata` of `sevenseg-i2c.c`: splits
`ch` into nibbles mapped onto the D4..D7 lines, ORs each port byte with
the register-select bit (clear for `RS_INSTR` flags, set otherwise) and
the current `backlight_bit`, and frames each nibble with an enable pulse.
Returns the bus events issued, in order (`delayBus` inserts the
configuration-dependent 1 microsecond settle pauses). -/
def i2c_sevenseg_senddata (m : LinePinMap) (delayBus : Bool)
    (backlight_bit : Nat) (flags : Nat) (ch : Nat) : List BusEvent :=
  let h :=
    (if ch &&& 0x80 ≠ 0 then bitMask m.d7 else 0) |||
    (if ch &&& 0x40 ≠ 0 then bitMask m.d6 else 0) |||
    (if ch &&& 0x20 ≠ 0 then bitMask m.d5 else 0) |||
    (if ch &&& 0x10 ≠ 0 then bitMask m.d4 else 0)
  let l :=
    (if ch &&& 0x08 ≠ 0 then bitMask m.d7 else 0) |||
    (if ch &&& 0x04 ≠ 0 then bitMask m.d6 else 0) |||
    (if ch &&& 0x02 ≠ 0 then bitMask m.d5 else 0) |||
    (if ch &&& 0x01 ≠ 0 then bitMask m.d4 else 0)
  let portControl := (if flags = RS_INSTR then 0 else bitMask m.rs) ||| backlight_bit
  [BusEvent.write (portControl ||| h)] ++
  (if delayBus then [BusEvent.pause 1] else []) ++
  [BusEvent.write (bitMask m.en ||| portControl ||| h)] ++
  (if delayBus then [BusEvent.pause 1] else []) ++
  [BusEvent.write (portControl ||| h),
   BusEvent.write (portControl ||| l)] ++
  (if delayBus then [BusEvent.pause 1] else []) ++
  [BusEvent.write (bitMask m.en ||| portControl ||| l)] ++
  (if delayBus then [BusEvent.pause 1] else []) ++
  [BusEvent.write (portControl ||| l)]

/-- Port writes issued by one `i2c_sevenseg_senddata` call, in order. -/
def sendWrites (m : LinePinMap) (delayBus : Bool)
    (backlight_bit flags ch : Nat) : List Nat :=
  writesOf (i2c_sevenseg_senddata m delayBus backlight_bit flags ch)

/-- Spec-side observer for C2's recombination: the high nibble
transmitted by a port byte, read off the data lines D4..D7. -/
def decodeHigh (m : LinePinMap) (w : Nat) : Nat :=
  (if w.testBit m.d7 then 128 else 0) + (if w.testBit m.d6 then 64 else 0) +
  (if w.testBit m.d5 then 32 else 0) + (if w.testBit m.d4 then 16 else 0)

/-- Spec-side observer for C2's recombination: the low nibble transmitted
by a port byte, read off the data lines D4..D7. -/
def decodeLow (m : LinePinMap) (w : Nat) : Nat :=
  (if w.testBit m.d7 then 8 else 0) + (if w.testBit m.d6 then 4 else 0) +
  (if w.testBit m.d5 then 2 else 0) + (if w.testBit m.d4 then 1 else 0)

/-- Bus events issued by the power-up part of `sevenseg_init_i2c`
(lines 123-168 of `sevenseg-i2c.c`): four FUNCSET-8BIT pulses on D4 and
D5, then the 4-bit-mode select pulse on D5 alone, with the unconditional
settle waits and the `delayBus`-conditional 1 microsecond pauses. -/
def sevenseg_init_i2c_trace (m : LinePinMap) (delayBus : Bool) : List BusEvent :=
  let d45 := bitMask m.d4 ||| bitMask m.d5
  [BusEvent.write d45] ++ (if delayBus then [BusEvent.pause 1] else []) ++
  [BusEvent.write (bitMask m.en ||| d45)] ++
  (if delayBus then [BusEvent.pause 1] else []) ++
  [BusEvent.write d45, BusEvent.pause 15000,
   BusEvent.write (bitMask m.en ||| d45)] ++
  (if delayBus then [BusEvent.pause 1] else []) ++
  [BusEvent.write d45, BusEvent.pause 5000,
   BusEvent.write (bitMask m.en ||| d45)] ++
  (if delayBus then [BusEvent.pause 1] else []) ++
  [BusEvent.write d45, BusEvent.pause 100,
   BusEvent.write (bitMask m.en ||| d45)] ++
  (if delayBus then [BusEvent.pause 1] else []) ++
  [BusEvent.write d45, BusEvent.pause 100,
   BusEvent.write (bitMask m.d5)] ++
  (if delayBus then [BusEvent.pause 1] else []) ++
  [BusEvent.write (bitMask m.en ||| bitMask m.d5)] ++
  (if delayBus then [BusEvent.pause 1] else []) ++
  [BusEvent.write (bitMask m.d5), BusEvent.pause 100]

/-- The i2c connection initializer `sevenseg_init_i2c`: a failed bus open
aborts with an error (C return -1) and issues no pulses; a successful
open runs the power-up sequence and succeeds, returning the issued bus
events. -/
def sevenseg_init_i2c (m : LinePinMap) (delayBus : Bool) (openOk : Bool) :
    Option (List BusEvent) :=
  if openOk then some (sevenseg_init_i2c_trace m delayBus) else none

/-- Does the event raise the enable line (a port write with the EN bit
set)? -/
def isEnWrite (m : LinePinMap) (e : BusEvent) : Bool :=
  match e with
  | BusEvent.write v => v.testBit m.en
  | BusEvent.pause _ => false

/-- Helper of `pulseGaps`: total pause time after the current pulse,
then recurse at each later pulse. -/
def gapsAux (f : BusEvent → Bool) (acc : Nat) : List BusEvent → List Nat
  | [] => [acc]
  | e :: rest =>
    if f e then acc :: gapsAux f 0 rest
    else
      match e with
      | BusEvent.pause us => gapsAux f (acc + us) rest
      | BusEvent.write _ => gapsAux f acc rest

/-- For each pulse event (satisfying `f`) of a trace, the total pause
time issued until the next pulse event (or the end of the trace); one
list entry per pulse, in order. -/
def pulseGaps (f : BusEvent → Bool) (tr : List BusEvent) : List Nat :=
  match tr.dropWhile (fun e => !f e) with
  | [] => []
  | _ :: rest => gapsAux f 0 rest

/-- The character writer `sevenseg_chr` of `text.c`: converts the 1-based
coordinates (C ints) to 0-based, writes the cell only when it is inside
the width-by-height grid, and returns the (possibly unchanged)
framebuffer; it never signals an error.  Framebuffer cells are byte
values, stored row-major. -/
def sevenseg_chr (width height : Int) (fb : List Nat) (x y : Int)
    (c : Nat) : List Nat :=
  let x' := x - 1
  let y' := y - 1
  if 0 ≤ x' ∧ 0 ≤ y' ∧ x' < width ∧ y' < height then
    fb.set (y' * width + x').toNat c
  else fb

/-- Loop of `sevenseg_string`: walk the string while the column is left
of the right border, writing only at columns at or right of the left
border. -/
def stringLoop (width y : Int) : List Nat → Int → List Nat → List Nat
  | fb, _, [] => fb
  | fb, x, c0 :: rest =>
    if x < width then
      stringLoop width y
        (if 0 ≤ x then fb.set (y * width + x).toNat c0 else fb) (x + 1) rest
    else fb

/-- The string writer `sevenseg_string` of `text.c`: converts the 1-based
coordinates to 0-based, returns the framebuffer unchanged when the row is
out of range, and otherwise writes the string into row `y`, clamped at
the left and right borders; it never signals an error. -/
def sevenseg_string (width height : Int) (fb : List Nat) (x y : Int)
    (s : List Nat) : List Nat :=
  let x' := x - 1
  let y' := y - 1
  if y' < 0 ∨ y' ≥ height then fb
  else stringLoop width y' fb x' s

/-- The flusher `sevenseg_flush` of `text.c`: copies the first `width`
framebuffer cells (row 1) and emits the seven-segment encoding of each;
returns the emitted glyph codes in order. -/
def sevenseg_flush (width : Int) (fb : List Nat) : List Nat :=
  (fb.take width.toNat).map map_to_seg7

/-- Is the character one of the C `isspace` class (space, tab, newline,
vertical tab, form feed, carriage return)? -/
def isSpaceChar (c : Char) : Bool :=
  c = ' ' ∨ c = '\t' ∨ c = '\n' ∨ c = '\x0b' ∨ c = '\x0c' ∨ c = '\r'

/-- Is the character an ASCII decimal digit? -/
def isDigitChar (c : Char) : Bool :=
  48 ≤ c.toNat ∧ c.toNat ≤ 57

/-- Numeric value of an ASCII decimal digit. -/
def digitVal (c : Char) : Nat := c.toNat - 48

/-- Value of a digit string, most significant digit first. -/
def natOfDigits (ds : List Char) : Nat :=
  ds.foldl (fun acc c => 10 * acc + digitVal c) 0

/-- Scan a nonempty run of decimal digits from the front of the input;
returns the value and the remaining input. -/
def scanUInt (cs : List Char) : Option (Nat × List Char) :=
  let ds := cs.takeWhile isDigitChar
  if ds.isEmpty then none
  else some (natOfDigits ds, cs.dropWhile isDigitChar)

/-- Scan a C `%d` conversion: skip leading whitespace, optional sign,
then a nonempty digit run. -/
def scanInt (cs : List Char) : Option (Int × List Char) :=
  match cs.dropWhile isSpaceChar with
  | '-' :: rest => (scanUInt rest).map fun p => (-(p.1 : Int), p.2)
  | '+' :: rest => (scanUInt rest).map fun p => ((p.1 : Int), p.2)
  | cs2 => (scanUInt cs2).map fun p => ((p.1 : Int), p.2)

/-- The `sscanf(buf, "%dxSECOND", ...)` parse of the Size configuration
string: a `%d` conversion, the literal character x, then another `%d`
conversion; `none` models a return value different from 2. -/
def parseSize (cs : List Char) : Option (Int × Int) :=
  match scanInt cs with
  | none => none
  | some (w, r) =>
    match r with
    | 'x' :: r2 =>
      match scanInt r2 with
      | none => none
      | some (h, _) => some (w, h)
    | _ => none

/-- The default grid size string "20x4" (`SEVENSEG_DEFAULT_SIZE` of
`sevenseg.h`), as a character list. -/
def SEVENSEG_DEFAULT_SIZE : List Char := ['2', '0', 'x', '4']

/-- The display-size selection step of `sevenseg_init` (`text.c`, the
config-file path): parse the configured Size string; on a parse failure
or an out-of-bounds width/height, report a warning and re-parse the
default size string instead.  Returns the chosen (width, height) and
whether the warning was reported; the step has no failure outcome (this
branch of `sevenseg_init` never returns -1). -/
def sevenseg_init_size (maxW maxH : Int) (cfg : List Char) :
    (Int × Int) × Bool :=
  match parseSize cfg with
  | some (w, h) =>
    if w ≤ 0 ∨ w > maxW ∨ h ≤ 0 ∨ h > maxH then
      ((parseSize SEVENSEG_DEFAULT_SIZE).getD (0, 0), true)
    else ((w, h), false)
  | none => ((parseSize SEVENSEG_DEFAULT_SIZE).getD (0, 0), true)

/-- C4: the flip transform swaps the perimeter pairs A-D, B-E, C-F and
keeps G on every 7-bit pattern (including 0 and 127), is an involution
there, and encode-flip-flip returns the original pattern for every
character of the default segment table. -/
theorem flip_seg7_involution :
    (∀ v, v < 128 →
      ((flip_seg7 v).testBit BIT_SEG7_D = v.testBit BIT_SEG7_A ∧
       (flip_seg7 v).testBit BIT_SEG7_A = v.testBit BIT_SEG7_D ∧
       (flip_seg7 v).testBit BIT_SEG7_E = v.testBit BIT_SEG7_B ∧
       (flip_seg7 v).testBit BIT_SEG7_B = v.testBit BIT_SEG7_E ∧
       (flip_seg7 v).testBit BIT_SEG7_F = v.testBit BIT_SEG7_C ∧
       (flip_seg7 v).testBit BIT_SEG7_C = v.testBit BIT_SEG7_F ∧
       (flip_seg7 v).testBit BIT_SEG7_G = v.testBit BIT_SEG7_G ∧
       flip_seg7 (flip_seg7 v) = v)) ∧
    (∀ c, c < 256 → flip_seg7 (flip_seg7 (map_to_seg7 c)) = map_to_seg7 c) := by
  decide

/-- Witness for C4 at the concrete inputs v = 127 and c = 65. -/
theorem flip_seg7_involution_w :
    flip_seg7 (flip_seg7 127) = 127 ∧
    flip_seg7 (flip_seg7 (map_to_seg7 65)) = map_to_seg7 65 :=
  ⟨(flip_seg7_involution.1 127 (by decide)).2.2.2.2.2.2.2,
   flip_seg7_involution.2 65 (by decide)⟩

/-- C9: on the full byte domain, flip_seg7 never sets bit 7, and flip
composed with flip equals masking to the low 7 bits; in particular it is
not the identity on bytes with bit 7 set. -/
theorem flip_seg7_high_bit_clear :
    (∀ v, v < 256 →
      ((flip_seg7 v).testBit 7 = false ∧
       flip_seg7 (flip_seg7 v) = v &&& 0x7f)) ∧
    flip_seg7 (flip_seg7 0x80) ≠ 0x80 := by
  decide

/-- Witness for C9 at the concrete input v = 0x80 = 128. -/
theorem flip_seg7_high_bit_clear_w :
    (flip_seg7 128).testBit 7 = false ∧
    flip_seg7 (flip_seg7 128) = 128 &&& 0x7f :=
  flip_seg7_high_bit_clear.1 128 (by decide)

/-- Auxiliary: testing bit `i` of the single-bit mask for position `k`. -/
theorem testBit_bitMask (k i : Nat) : (bitMask k).testBit i = decide (k = i) := by
  rw [bitMask, Nat.one_shiftLeft]; exact Nat.testBit_two_pow

/-- Auxiliary: a byte AND a single-bit mask is nonzero exactly when the
corresponding bit is set. -/
theorem and_shiftLeft_ne_zero (x k : Nat) :
    (x &&& (1 <<< k) ≠ 0) ↔ x.testBit k = true := by
  rw [Nat.one_shiftLeft, Nat.and_two_pow]
  rcases h : x.testBit k with _ | _ <;> simp

/-- Counterexample to C1: on the standard pin map with a backlight pin
present, polarity not inverted and backlight requested on, the code
computes backlight bit 0 (not set), while the claim's truth table says
the bit is set. -/
theorem i2c_sevenseg_backlight_cex :
    ((i2c_sevenseg_backlight stdPinMap true 0 1).1).testBit stdPinMap.bl = false ∧
    (i2c_sevenseg_backlight stdPinMap true 0 1).1 = 0 ∧
    bitMask stdPinMap.bl ≠ 0 := by
  decide

/-- C1 (amended): setBacklight computes the backlight bit by the code's
truth table: no backlight pin gives bit clear for any inversion and
request; with a pin and non-inverted polarity the bit is set exactly when
the request is off; with a pin and inverted polarity the bit is set
exactly when the request is on; the computed bit is stored in the session
state (the returned `backlight_bit`) and immediately written to the bus. -/
theorem i2c_sevenseg_backlight_truth_table (m : LinePinMap) (hasPin : Bool)
    (invert state : Nat) :
    (hasPin = false → (i2c_sevenseg_backlight m hasPin invert state).1 = 0) ∧
    (hasPin = true → invert = 0 →
      (((i2c_sevenseg_backlight m hasPin invert state).1).testBit m.bl = true ↔
        state = 0)) ∧
    (hasPin = true → invert ≠ 0 →
      (((i2c_sevenseg_backlight m hasPin invert state).1).testBit m.bl = true ↔
        state ≠ 0)) ∧
    (i2c_sevenseg_backlight m hasPin invert state).2 =
      [BusEvent.write (i2c_sevenseg_backlight m hasPin invert state).1] := by
  refine ⟨?_, ?_, ?_, rfl⟩
  · intro hp
    subst hp
    by_cases hi : invert = 0 <;>
      simp [i2c_sevenseg_backlight, hi]
  · intro hp hi
    subst hp
    subst hi
    by_cases hs : state = 0 <;>
      simp [i2c_sevenseg_backlight, hs, testBit_bitMask, Nat.zero_testBit]
  · intro hp hi
    subst hp
    by_cases hs : state = 0 <;>
      simp [i2c_sevenseg_backlight, hi, hs, testBit_bitMask, Nat.zero_testBit]

/-- Witness for C1 (amended) at the concrete input: standard pin map,
backlight pin present, polarity not inverted, backlight requested off. -/
theorem i2c_sevenseg_backlight_truth_table_w :
    ((i2c_sevenseg_backlight stdPinMap true 0 0).1).testBit stdPinMap.bl = true :=
  ((i2c_sevenseg_backlight_truth_table stdPinMap true 0 0).2.1 rfl rfl).mpr rfl

/-- Counterexample to C5: with the latch initially clear, the outcome
sequence failure, success, failure logs the second failure at debug
level, while the claim says a failure after an intervening successful
write is again reported at error level. -/
theorem runWrites_latch_cex :
    runWrites false [false, true, false] =
      [some RptLevel.err, none, some RptLevel.debug] ∧
    RptLevel.debug ≠ RptLevel.err := by
  decide

/-- Auxiliary: the log message of the i-th `i2c_out` call as a function
of the outcome history and the initial latch value. -/
theorem runWrites_get? (l : Bool) (outs : List Bool) :
    ∀ i, i < outs.length →
    (runWrites l outs)[i]? =
      if outs[i]? = some false then
        (if l = true ∨ false ∈ outs.take i
         then some (some RptLevel.debug) else some (some RptLevel.err))
      else some none := by
  induction outs generalizing l with
  | nil => intro i hi; simp at hi
  | cons a rest ih =>
    intro i hi
    match i with
    | 0 =>
      cases a <;> cases l <;> simp [runWrites, i2c_out]
    | Nat.succ n =>
      have hn : n < rest.length := by simpa using hi
      have step : (runWrites l (a :: rest))[n + 1]? =
          (runWrites ((i2c_out l a 0).latch') rest)[n]? := by
        simp [runWrites]
      rw [step]
      cases a with
      | false =>
        have hl : (i2c_out l false 0).latch' = true := rfl
        rw [hl, ih true n hn]
        simp [List.take_succ_cons]
      | true =>
        have hl : (i2c_out l true 0).latch' = l := rfl
        rw [hl, ih l n hn]
        simp [List.take_succ_cons]

/-- C5 (amended): bus write failures are logged at a rate-limited
severity: the first failure of the process is reported at error level and
every subsequent failure at debug level, whether or not successful writes
intervene (the latch is never reset); successful writes log nothing. -/
theorem runWrites_rate_limited (outs : List Bool) (i : Nat)
    (hi : i < outs.length) :
    (runWrites false outs)[i]? =
      if outs[i]? = some false then
        (if false ∈ outs.take i
         then some (some RptLevel.debug) else some (some RptLevel.err))
      else some none := by
  have h := runWrites_get? false outs i hi
  simpa using h

/-- Witness for C5 (amended): outcome sequence success, failure, failure;
the failure at index 2 follows the earlier failure at index 1 and is
logged at debug level. -/
theorem runWrites_rate_limited_w :
    (runWrites false [true, false, false])[2]? = some (some RptLevel.debug) := by
  have h := runWrites_rate_limited [true, false, false] 2 (by decide)
  simpa using h

/-- Counterexample to C6: `i2c_out` is C `void`; a failing call and a
successful call return the same (empty) value to the caller, so no error
indication is returned. -/
theorem i2c_out_void_cex :
    (i2c_out false false 7).ret = (i2c_out false true 7).ret ∧
    (i2c_out false false 7).attempts = 1 := ⟨rfl, rfl⟩

/-- C6 (amended): on a failed bus write the write primitive does not
retry (it makes exactly one underlying bus write attempt per call, of
exactly the requested byte), but it returns no error indication to its
caller: the function is void and failure is only logged, so callers
always continue. -/
theorem i2c_out_no_retry_no_result (latch ack : Bool) (val : Nat) :
    (i2c_out latch ack val).attempts = 1 ∧
    (i2c_out latch ack val).busWrite = val ∧
    (i2c_out latch ack val).ret = (i2c_out latch true val).ret :=
  ⟨rfl, rfl, rfl⟩

/-- Auxiliary: testBit distributes over a conditional. -/
theorem testBit_ite (c : Prop) [Decidable c] (a b i : Nat) :
    (if c then a else b).testBit i = if c then a.testBit i else b.testBit i := by
  split <;> rfl

/-- Auxiliary: recombining the nibble conditions of a byte yields the
byte back. -/
theorem byte_recombine : ∀ ch : Nat, ch < 256 →
    ((((if ch &&& 128 = 0 then (0 : Nat) else 128) +
       if ch &&& 64 = 0 then 0 else 64) +
       if ch &&& 32 = 0 then 0 else 32) +
       if ch &&& 16 = 0 then 0 else 16) +
    ((((if ch &&& 8 = 0 then (0 : Nat) else 8) +
       if ch &&& 4 = 0 then 0 else 4) +
       if ch &&& 2 = 0 then 0 else 2) +
       if ch % 2 = 1 then 1 else 0) = ch := by
  decide

/-- C2: for every byte and frame kind, senddata issues exactly 6 port
writes: a triplet for the high nibble then a triplet for the low nibble,
each triplet being a port byte with enable clear, the same byte with
enable set, then the same byte with enable clear again; every write
carries the register-select bit exactly for non-Instruction frames and
the current backlight bit; and recombining the high nibble of triplet 1
with the low nibble of triplet 2 reconstructs the byte. -/
theorem i2c_sevenseg_senddata_six_writes (m : LinePinMap) (hm : m.wf)
    (delayBus blOn : Bool) (flags ch : Nat) (hch : ch < 256) :
    let ws := sendWrites m delayBus (if blOn then bitMask m.bl else 0) flags ch
    ws.length = 6 ∧
    ws[1]! = bitMask m.en ||| ws[0]! ∧
    ws[2]! = ws[0]! ∧
    ws[4]! = bitMask m.en ||| ws[3]! ∧
    ws[5]! = ws[3]! ∧
    ws[0]!.testBit m.en = false ∧
    ws[3]!.testBit m.en = false ∧
    (∀ w ∈ ws, w.testBit m.rs = decide (flags ≠ RS_INSTR) ∧
               w.testBit m.bl = blOn) ∧
    decodeHigh m (ws[0]!) + decodeLow m (ws[3]!) = ch := by
  obtain ⟨-, -, -, -, -, -, -, h1, h2, h3, h4, h5, h6, h7, h8, h9, h10, h11,
    h12, h13, h14, h15, h16, h17, h18, h19, h20, h21⟩ := hm
  cases delayBus <;> cases blOn <;>
    simp [sendWrites, writesOf, i2c_sevenseg_senddata, decodeHigh, decodeLow,
      testBit_ite, testBit_bitMask, Nat.testBit_lor, Nat.zero_testBit,
      Nat.lor_assoc, byte_recombine ch hch,
      h1, h2, h3, h4, h5, h6, h7, h8, h9, h10, h11, h12, h13, h14, h15, h16,
      h17, h18, h19, h20, h21,
      Ne.symm h1, Ne.symm h2, Ne.symm h3, Ne.symm h4, Ne.symm h5, Ne.symm h6,
      Ne.symm h7, Ne.symm h8, Ne.symm h9, Ne.symm h10, Ne.symm h11,
      Ne.symm h12, Ne.symm h13, Ne.symm h14, Ne.symm h15, Ne.symm h16,
      Ne.symm h17, Ne.symm h18, Ne.symm h19, Ne.symm h20, Ne.symm h21]

/-- Witness for C2: standard pin map, no bus delay, backlight on, Data
frame, byte 0xA5. -/
theorem i2c_sevenseg_senddata_six_writes_w :
    (sendWrites stdPinMap false (if true then bitMask stdPinMap.bl else 0)
      RS_DATA 165).length = 6 ∧
    decodeHigh stdPinMap
        ((sendWrites stdPinMap false (if true then bitMask stdPinMap.bl else 0)
          RS_DATA 165)[0]!) +
      decodeLow stdPinMap
        ((sendWrites stdPinMap false (if true then bitMask stdPinMap.bl else 0)
          RS_DATA 165)[3]!) = 165 :=
  ⟨(i2c_sevenseg_senddata_six_writes stdPinMap (by decide) false true RS_DATA 165
      (by decide)).1,
   (i2c_sevenseg_senddata_six_writes stdPinMap (by decide) false true RS_DATA 165
      (by decide)).2.2.2.2.2.2.2.2⟩

set_option maxHeartbeats 1600000 in
/-- C3: after a successful bus open, initialization issues exactly 5
enable pulses in fixed order, four with D4 and D5 raised (FUNCSET-8BIT)
then one with only D5 raised (4-bit-mode select), and the total pause
issued after each pulse before the next one is at least 15 ms, 5 ms,
100 us, 100 us and 100 us respectively, for every delayBus setting. -/
theorem sevenseg_init_i2c_five_pulses (m : LinePinMap) (hm : m.wf)
    (delayBus openOk : Bool) (tr : List BusEvent)
    (hopen : sevenseg_init_i2c m delayBus openOk = some tr) :
    (writesOf tr).filter (fun v => v.testBit m.en) =
      [bitMask m.en ||| (bitMask m.d4 ||| bitMask m.d5),
       bitMask m.en ||| (bitMask m.d4 ||| bitMask m.d5),
       bitMask m.en ||| (bitMask m.d4 ||| bitMask m.d5),
       bitMask m.en ||| (bitMask m.d4 ||| bitMask m.d5),
       bitMask m.en ||| bitMask m.d5] ∧
    (bitMask m.en ||| (bitMask m.d4 ||| bitMask m.d5)).testBit m.d4 = true ∧
    (bitMask m.en ||| (bitMask m.d4 ||| bitMask m.d5)).testBit m.d5 = true ∧
    (bitMask m.en ||| bitMask m.d5).testBit m.d4 = false ∧
    (bitMask m.en ||| bitMask m.d5).testBit m.d5 = true ∧
    List.Forall₂ (fun a b => a ≤ b) [15000, 5000, 100, 100, 100]
      (pulseGaps (isEnWrite m) tr) := by
  obtain ⟨-, -, -, -, -, -, -, h1, h2, h3, h4, h5, h6, h7, h8, h9, h10, h11,
    h12, h13, h14, h15, h16, h17, h18, h19, h20, h21⟩ := hm
  have hok : openOk = true := by
    cases openOk
    · simp [sevenseg_init_i2c] at hopen
    · rfl
  subst hok
  have htr : tr = sevenseg_init_i2c_trace m delayBus := by
    have h := hopen
    simp [sevenseg_init_i2c] at h
    exact h.symm
  subst htr
  cases delayBus <;>
    simp [sevenseg_init_i2c_trace, writesOf, isEnWrite, pulseGaps, gapsAux,
      List.dropWhile, List.filter, testBit_bitMask, Nat.testBit_lor,
      Nat.zero_testBit, List.forall₂_cons,
      h1, h2, h3, h4, h5, h6, h16, Ne.symm h3, Ne.symm h4, Ne.symm h16]

/-- Witness for C3: standard pin map, bus-speed delays enabled, open
succeeded. -/
theorem sevenseg_init_i2c_five_pulses_w :
    List.Forall₂ (fun a b => a ≤ b) [15000, 5000, 100, 100, 100]
      (pulseGaps (isEnWrite stdPinMap) (sevenseg_init_i2c_trace stdPinMap true)) :=
  (sevenseg_init_i2c_five_pulses stdPinMap (by decide) true true
    (sevenseg_init_i2c_trace stdPinMap true) rfl).2.2.2.2.2

/-- C8: a malformed or out-of-bounds Size configuration string does not
fail driver initialization: the step warns and applies the default grid
size 20x4, then continues. -/
theorem sevenseg_init_size_fallback (maxW maxH : Int) (cfg : List Char)
    (hbad : parseSize cfg = none ∨
      ∃ w h, parseSize cfg = some (w, h) ∧
        (w ≤ 0 ∨ w > maxW ∨ h ≤ 0 ∨ h > maxH)) :
    sevenseg_init_size maxW maxH cfg = ((20, 4), true) := by
  have hdef : (parseSize SEVENSEG_DEFAULT_SIZE).getD (0, 0) = ((20 : Int), (4 : Int)) := by
    decide
  rcases hbad with hnone | ⟨w, h, hsome, hoob⟩
  · simp [sevenseg_init_size, hnone, hdef]
    decide
  · simp only [sevenseg_init_size, hsome]
    rw [if_pos hoob, hdef]

/-- Witness for C8: the malformed Size string "abc". -/
theorem sevenseg_init_size_fallback_w :
    sevenseg_init_size 80 25 ['a', 'b', 'c'] = ((20, 4), true) :=
  sevenseg_init_size_fallback 80 25 ['a', 'b', 'c'] (Or.inl (by decide))

/-- C10: flush reads only the first framebuffer row: it emits one glyph
per column, the i-th being the default-table seven-segment encoding of
the i-th cell of row 1, and two framebuffers agreeing on row 1 flush
identically, whatever rows 2..height hold. -/
theorem sevenseg_flush_first_row (width height : Int) (fb fb2 : List Nat)
    (hw : 0 < width) (hh : 1 ≤ height)
    (hlen : (fb.length : Int) = width * height) :
    (sevenseg_flush width fb).length = width.toNat ∧
    (∀ i : Nat, i < width.toNat →
      (sevenseg_flush width fb)[i]? = (fb[i]?).map map_to_seg7) ∧
    (fb.take width.toNat = fb2.take width.toNat →
      sevenseg_flush width fb = sevenseg_flush width fb2) := by
  have hwh : width ≤ width * height := le_mul_of_one_le_right (le_of_lt hw) hh
  have hle : width.toNat ≤ fb.length := by omega
  refine ⟨?_, ?_, ?_⟩
  · simp [sevenseg_flush]
    omega
  · intro i hi
    simp [sevenseg_flush, List.getElem?_take, hi]
  · intro hrow
    simp [sevenseg_flush, hrow]

/-- Auxiliary: row-major cell addresses are unique: if two in-range
row/column pairs give the same address, the rows and columns agree. -/
theorem rowcol_unique (width r y c x : Int) (hw : 0 < width)
    (hc0 : 0 ≤ c) (hcw : c < width) (hx0 : 0 ≤ x) (hxw : x < width)
    (heq : r * width + c = y * width + x) : r = y ∧ c = x := by
  have hkey : (r - y) * width = x - c := by linear_combination heq
  rcases lt_trichotomy r y with h | h | h
  · exfalso
    have h1 : r - y ≤ -1 := by omega
    have h2 : (r - y) * width ≤ (-1) * width :=
      mul_le_mul_of_nonneg_right h1 (le_of_lt hw)
    have h3 : ((-1) : Int) * width = -width := by ring
    rw [h3, hkey] at h2
    omega
  · refine ⟨h, ?_⟩
    subst h
    exact add_left_cancel heq
  · exfalso
    have h1 : (1 : Int) ≤ r - y := by omega
    have h2 : (1 : Int) * width ≤ (r - y) * width :=
      mul_le_mul_of_nonneg_right h1 (le_of_lt hw)
    have h3 : (1 : Int) * width = width := by ring
    rw [h3, hkey] at h2
    omega

/-- Auxiliary: cell-wise characterization of `stringLoop`: cell (r, c)
is overwritten exactly when it lies in row `y` inside the string window
clipped to the grid, and then receives the corresponding string byte. -/
theorem stringLoop_getElem? (width y : Int) (hw : 0 < width) (hy : 0 ≤ y) :
    ∀ (s : List Nat) (x : Int) (fb : List Nat),
      (y + 1) * width ≤ (fb.length : Int) →
      ∀ r c : Int, 0 ≤ r → 0 ≤ c → c < width →
        (stringLoop width y fb x s)[(r * width + c).toNat]? =
          (if r = y ∧ x ≤ c ∧ c < x + s.length
           then some (s.getD (c - x).toNat 0)
           else fb[(r * width + c).toNat]?) := by
  intro s
  induction s with
  | nil =>
    intro x fb hfb r c hr hc hcw
    simp only [stringLoop, List.length_nil]
    rw [if_neg]
    rintro ⟨h1, h2, h3⟩
    omega
  | cons c0 rest ih =>
    intro x fb hfb r c hr hc hcw
    have hyw : (y + 1) * width = y * width + width := by ring
    have hA0 : 0 ≤ y * width := mul_nonneg hy (le_of_lt hw)
    simp only [stringLoop, List.length_cons]
    push_cast
    by_cases hxw : x < width
    · rw [if_pos hxw]
      by_cases hx0 : 0 ≤ x
      · rw [if_pos hx0]
        have hfb' : (y + 1) * width ≤
            (((fb.set (y * width + x).toNat c0).length : Int)) := by
          rw [List.length_set]
          exact hfb
        rw [ih (x + 1) _ hfb' r c hr hc hcw]
        by_cases hcond2 : r = y ∧ x + 1 ≤ c ∧ c < x + 1 + rest.length
        · rw [if_pos hcond2, if_pos ⟨hcond2.1, by omega, by omega⟩]
          have hidx : (c - x).toNat = (c - (x + 1)).toNat + 1 := by omega
          rw [hidx, List.getD_cons_succ]
        · rw [if_neg hcond2]
          by_cases hcond : r = y ∧ x ≤ c ∧ c < x + (rest.length + 1)
          · have hry : r = y := hcond.1
            have hcx : c = x := by
              rcases hcond with ⟨h1, h2, h3⟩
              by_contra hne
              exact hcond2 ⟨h1, by omega, by omega⟩
            rw [if_pos hcond]
            subst hry
            subst hcx
            have hjlt : (r * width + c).toNat < fb.length := by
              rw [hyw] at hfb
              have hj : r * width + c < (fb.length : Int) := by linarith
              omega
            rw [List.getElem?_set, if_pos rfl, if_pos hjlt]
            simp
          · rw [if_neg hcond]
            have hne_pair : ¬(r = y ∧ c = x) := by
              rintro ⟨h1, h2⟩
              exact hcond ⟨h1, by omega, by omega⟩
            have hne : (y * width + x).toNat ≠ (r * width + c).toNat := by
              intro hEq
              have h1 : 0 ≤ y * width + x := add_nonneg hA0 hx0
              have h2 : 0 ≤ r * width + c :=
                add_nonneg (mul_nonneg hr (le_of_lt hw)) hc
              have hEq' : y * width + x = r * width + c := by omega
              obtain ⟨hr', hc'⟩ :=
                rowcol_unique width r y c x hw hc hcw hx0 hxw hEq'.symm
              exact hne_pair ⟨hr', hc'⟩
            rw [List.getElem?_set, if_neg hne]
      · rw [if_neg hx0]
        rw [ih (x + 1) fb hfb r c hr hc hcw]
        by_cases hcond2 : r = y ∧ x + 1 ≤ c ∧ c < x + 1 + rest.length
        · rw [if_pos hcond2, if_pos ⟨hcond2.1, by omega, by omega⟩]
          have hidx : (c - x).toNat = (c - (x + 1)).toNat + 1 := by omega
          rw [hidx, List.getD_cons_succ]
        · rw [if_neg hcond2, if_neg]
          rintro ⟨h1, h2, h3⟩
          exact hcond2 ⟨h1, by omega, by omega⟩
    · rw [if_neg hxw]
      rw [if_neg]
      rintro ⟨h1, h2, h3⟩
      omega

/-- C7: with 1-based coordinates and top-left origin, the character
writer leaves the framebuffer unchanged for any out-of-range coordinate,
and the string writer does nothing for an out-of-range row and otherwise
overwrites exactly the in-range cells of its row covered by the string
(clamped at the left and right borders), leaving every other cell
unchanged; both operations are total (no error outcome). -/
theorem sevenseg_clipping (width height : Int) (fb : List Nat)
    (hw : 0 < width) (hh : 0 < height)
    (hlen : (fb.length : Int) = width * height) :
    (∀ x y c, (x < 1 ∨ x > width ∨ y < 1 ∨ y > height) →
      sevenseg_chr width height fb x y c = fb) ∧
    (∀ x y s, (y < 1 ∨ y > height) →
      sevenseg_string width height fb x y s = fb) ∧
    (∀ x y s, 1 ≤ y → y ≤ height →
      ∀ r c : Int, 0 ≤ r → 0 ≤ c → c < width →
        (sevenseg_string width height fb x y s)[(r * width + c).toNat]? =
          (if r = y - 1 ∧ x - 1 ≤ c ∧ c < x - 1 + s.length
           then some (s.getD (c - (x - 1)).toNat 0)
           else fb[(r * width + c).toNat]?)) := by
  refine ⟨?_, ?_, ?_⟩
  · intro x y c hoob
    simp only [sevenseg_chr]
    rw [if_neg]
    rintro ⟨h1, h2, h3, h4⟩
    omega
  · intro x y s hoob
    simp only [sevenseg_string]
    rw [if_pos (by omega)]
  · intro x y s hy1 hy2 r c hr hc hcw
    simp only [sevenseg_string]
    rw [if_neg (by omega)]
    have hb : (y - 1 + 1) * width ≤ (fb.length : Int) := by
      have h1 : (y - 1 + 1) * width = y * width := by ring
      have h2 : y * width ≤ height * width :=
        mul_le_mul_of_nonneg_right hy2 (le_of_lt hw)
      have h3 : height * width = width * height := mul_comm _ _
      rw [h1, hlen, ← h3]
      exact h2
    exact stringLoop_getElem? width (y - 1) hw (by omega) s (x - 1) fb hb
      r c hr hc hcw

/-- Witness for C7: a 3-by-2 grid; a character write at column 0 is
ignored, a string write at row 5 is ignored, and a two-byte string write
at (1,1) lands in row 1 columns 1..2. -/
theorem sevenseg_clipping_w :
    sevenseg_chr 3 2 [1, 2, 3, 4, 5, 6] 0 1 9 = [1, 2, 3, 4, 5, 6] ∧
    sevenseg_string 3 2 [1, 2, 3, 4, 5, 6] 1 5 [7, 8] = [1, 2, 3, 4, 5, 6] ∧
    (sevenseg_string 3 2 [1, 2, 3, 4, 5, 6] 1 1 [7, 8])[((0 : Int) * 3 + 1).toNat]? =
      some 8 := by
  have h := sevenseg_clipping 3 2 [1, 2, 3, 4, 5, 6] (by decide) (by decide)
    (by decide)
  refine ⟨h.1 0 1 9 (Or.inl (by decide)), h.2.1 1 5 [7, 8] (Or.inr (by decide)), ?_⟩
  have h3 := h.2.2 1 1 [7, 8] (by decide) (by decide) 0 1 (by decide) (by decide)
    (by decide)
  simpa using h3

/-- Witness for C10: a 2-by-2 framebuffer; the flush output has one glyph
per column and ignores row 2. -/
theorem sevenseg_flush_first_row_w :
    (sevenseg_flush 2 [65, 48, 49, 50]).length = (2 : Int).toNat ∧
    sevenseg_flush 2 [65, 48, 49, 50] = sevenseg_flush 2 [65, 48, 99, 99] := by
  have h := sevenseg_flush_first_row 2 2 [65, 48, 49, 50] [65, 48, 99, 99]
    (by decide) (by decide) (by decide)
  exact ⟨h.1, h.2.2 (by decide)⟩
